import Mathlib

/-!
Verification development for the Hitster trainer session store
(`src/unnamed/part_000`).  The program is a single-page app whose core is a
session state machine: a catalog of tracks loaded from CSV (`rows`), a
shuffled play order of catalog indices (`order`), a cursor (`index`), and a
presentation flag (`revealed`).  State is persisted to `localStorage` under a
fixed key after every mutation and restored (with validation) at startup.

We shallowly embed the relevant JavaScript:
  * JSON values (results of `JSON.parse` / arguments of `JSON.stringify`) as
    an inductive `Json`; JSON numbers are modelled as rationals (`JSON.parse`
    can only produce finite decimal numbers, so `ℚ` is faithful for the
    values that occur).
  * `localStorage.getItem` composed with `JSON.parse` as
    `Option (Except String Json)`: `none` = absent key, `some (.error e)` =
    parse failure (exception), `some (.ok j)` = parsed value.
  * The React component state as a structure `AppState`; the component plus
    storage, the one-shot restore guard (`restoredRef`) and the console-warn
    log as `Config`.
  * `Math.floor(Math.random() * (i + 1))` at loop step `i` of the shuffle as
    an oracle `rand : ℕ → ℕ` (faithful runs satisfy `rand i ≤ i`).
-/

namespace Hitster

/-- JSON values as produced by `JSON.parse`.  Objects keep their fields as an
association list in source order; `JSON.parse` keeps the last of duplicate
keys, which field access below respects. -/
inductive Json where
  | null
  | bool (b : Bool)
  | num (q : ℚ)
  | str (s : String)
  | arr (elems : List Json)
  | obj (fields : List (String × Json))

/-- JavaScript truthiness of a parsed JSON value (used by the `parsed &&`
guard on line 39).  `NaN` cannot arise from `JSON.parse`, so the numeric case
is just `q ≠ 0`. -/
def Json.truthy : Json → Bool
  | .null => false
  | .bool b => b
  | .num q => q != 0
  | .str s => s != ""
  | .arr _ => true
  | .obj _ => true

/-- JavaScript property access `j.k` for a parsed JSON value: a field lookup
on objects (last duplicate key wins, as in `JSON.parse`), `undefined`
(`none`) on everything else — arrays, strings, numbers and booleans have no
such own property, and the `null` case is unreachable behind the truthiness
guard. -/
def Json.getField : Json → String → Option Json
  | .obj fs, k => fs.reverse.lookup k
  | _, _ => none

/-- `Array.isArray(x) && x.length > 0` for a possibly-`undefined` value. -/
def isNonEmptyArray : Option Json → Bool
  | some (.arr (_ :: _)) => true
  | _ => false

/-- `typeof x === 'number'` for a possibly-`undefined` value. -/
def isNumber : Option Json → Bool
  | some (.num _) => true
  | _ => false

/-- Contents of a JSON array, `none` otherwise. -/
def Json.asArray : Json → Option (List Json)
  | .arr xs => some xs
  | _ => none

/-- JavaScript array indexing `xs[q]` by a number `q`: an element is returned
iff `q` is a non-negative integer below the length (the property key is the
canonical decimal string of such an index); any fractional, negative or
out-of-range number yields `undefined` (`none`). -/
def jsIndexNum (xs : List Json) (q : ℚ) : Option Json :=
  if q.den = 1 ∧ 0 ≤ q then xs.get? q.num.toNat else none

/-- JavaScript array indexing `xs[k]` where the key `k` is itself a parsed
JSON value (an element of the restored `order` array): numbers index as in
`jsIndexNum`; strings are coerced to property keys, hitting an element only
when they are the canonical decimal numeral of an in-range index; all other
values (and `undefined`) miss. -/
def jsIndexJson (xs : List Json) : Option Json → Option Json
  | some (.num q) => jsIndexNum xs q
  | some (.str s) =>
      match s.toNat? with
      | some n => if toString n = s then xs.get? n else none
      | none => none
  | _ => none

/-- One playable entry, as built by the CSV mapping (lines 70–76). -/
structure Track where
  id : String
  Artist : String
  Title : String
  URL : String
  Year : String
deriving DecidableEq, Repr

/-- A raw CSV row in header mode: header-name/cell-string pairs; a missing
header key means the field is `undefined`. -/
abbrev RawRow := List (String × String)

/-- JavaScript `a || b` where `a` is a possibly-`undefined` string: falls
through on `undefined` and on the empty string. -/
def jsOrStr (a : Option String) (b : String) : String :=
  match a with
  | some s => if s = "" then b else s
  | none => b

/-- Field extraction `r['K'] || r['k'] || ''` (lines 72, 73, 75). -/
def pickField (r : RawRow) (k1 k2 : String) : String :=
  jsOrStr (r.lookup k1) (jsOrStr (r.lookup k2) "")

/-- URL extraction `r['URL'] || r['Url'] || r['url'] || ''` (line 74),
before whitespace stripping. -/
def pickUrl (r : RawRow) : String :=
  jsOrStr (r.lookup "URL") (jsOrStr (r.lookup "Url") (jsOrStr (r.lookup "url") ""))

/-- The ECMAScript `\s` character class: the WhiteSpace production (TAB, VT,
FF, SP, NBSP, ZWNBSP and every Unicode Space_Separator code point) together
with the LineTerminator production (LF, CR, LS, PS). -/
def jsWhitespace (c : Char) : Bool :=
  c.toNat = 0x0009 || c.toNat = 0x000A || c.toNat = 0x000B || c.toNat = 0x000C ||
  c.toNat = 0x000D || c.toNat = 0x0020 || c.toNat = 0x00A0 || c.toNat = 0x1680 ||
  (0x2000 ≤ c.toNat && c.toNat ≤ 0x200A) || c.toNat = 0x2028 || c.toNat = 0x2029 ||
  c.toNat = 0x202F || c.toNat = 0x205F || c.toNat = 0x3000 || c.toNat = 0xFEFF

/-- Replacement of each maximal run of `p`-characters by the empty string:
the effect of `.replace(/P+/g, '')` on a character list, for a character
class `P` decided by `p`. -/
def stripRunsBy (p : Char → Bool) : List Char → List Char
  | [] => []
  | c :: cs =>
      if p c then stripRunsBy p (cs.dropWhile p)
      else c :: stripRunsBy p cs
termination_by l => l.length
decreasing_by
  · exact Nat.lt_succ_of_le (List.dropWhile_suffix _).length_le
  · exact Nat.lt_succ_self _

/-- `.replace(/\s+/g, '')` on the character list: each maximal run of
ECMAScript `\s` characters is replaced by the empty string (line 74). -/
def stripRuns (l : List Char) : List Char :=
  stripRunsBy jsWhitespace l

/-- `s.replace(/\s+/g, '')` as a `String` operation. -/
def stripWS (s : String) : String :=
  ⟨stripRuns s.data⟩

/-- The row-to-track mapping of lines 70–76 (`i` is the 0-based position of
the row in the parsed data). -/
def mapRow (i : ℕ) (r : RawRow) : Track :=
  { id := toString (i + 1)
    Artist := pickField r "Artist" "artist"
    Title := pickField r "Title" "title"
    URL := stripWS (pickUrl r)
    Year := pickField r "Year" "year" }

/-- The full catalog construction of lines 69–77: map each raw row with its
index, then drop every row whose resulting URL is the empty string
(`.filter((r) => r.URL)`, empty strings being falsy). -/
def mapRows (data : List RawRow) : List Track :=
  (data.enum.map (fun p => mapRow p.1 p.2)).filter (fun t => t.URL != "")

/-- Serialization of a `Track` back to a JSON object, as
`JSON.stringify` renders the mapped row objects. -/
def Track.toJson (t : Track) : Json :=
  .obj [("id", .str t.id), ("Artist", .str t.Artist), ("Title", .str t.Title),
        ("URL", .str t.URL), ("Year", .str t.Year)]

/-- In-place style swap of positions `i` and `j`, the effect of
`[a[i], a[j]] = [a[j], a[i]]` when both positions are in bounds (the shuffle
only ever swaps in-bounds positions); out of bounds it leaves the list
unchanged. -/
def listSwap (l : List α) (i j : ℕ) : List α :=
  match l.get? i, l.get? j with
  | some x, some y => (l.set i y).set j x
  | _, _ => l

/-- The Fisher–Yates loop of lines 10–13, with the loop variable `i`
descending; `rand i` models `Math.floor(Math.random() * (i + 1))`, the drawn
swap target for step `i` (in `[0, i]` for a faithful random source). -/
def fyLoop (rand : ℕ → ℕ) : ℕ → List α → List α
  | 0, a => a
  | i + 1, a => fyLoop rand i (listSwap a (i + 1) (rand (i + 1)))

/-- `shuffle(arr)` of lines 8–15: copy, then run the Fisher–Yates loop from
index `length - 1` down to `1`. -/
def shuffle (rand : ℕ → ℕ) (arr : List α) : List α :=
  fyLoop rand (arr.length - 1) arr

/-- The component state relevant to the session store: `loading`, `rows`,
`order`, `index`, `revealed` (lines 18–22).  Restored `rows` and `order`
entries are arbitrary JSON values (validation only checks they are non-empty
arrays), so both are lists of `Json`; the cursor is a JSON number. -/
structure AppState where
  loading : Bool
  rows : List Json
  order : List Json
  index : ℚ
  revealed : Bool

/-- The initial component state (`useState` initializers). -/
def initialState : AppState :=
  { loading := true, rows := [], order := [], index := 0, revealed := false }

/-- Stored snapshot as seen through `JSON.parse`: `none` = no value under the
key, `some (.error e)` = stored text that fails to parse, `some (.ok j)` =
successfully parsed value. -/
abbrev Stored := Option (Except String Json)

/-- The component together with its environment: state, the durable storage
slot under `STORAGE_KEY`, the one-shot guard `restoredRef` (line 28), and the
`console.warn` log. -/
structure Config where
  state : AppState
  storage : Stored
  restoredFlag : Bool
  log : List String

/-- `JSON.stringify({ order, index, rows })`: the serialized snapshot written
on every persist (lines 51–55, 84, 91, 101). -/
def serializeSession (rows order : List Json) (index : ℚ) : Json :=
  .obj [("order", .arr order), ("index", .num index), ("rows", .arr rows)]

/-- The snapshot validity test of lines 39–45: `parsed` truthy, `rows` a
non-empty array, `order` a non-empty array, `index` a number. -/
def validSnapshot (j : Json) : Bool :=
  j.truthy && isNonEmptyArray (j.getField "rows") &&
    isNonEmptyArray (j.getField "order") && isNumber (j.getField "index")

/-- Adoption of a valid snapshot (lines 46–56): set `order`, `index`, `rows`
from the parsed fields, clear `loading`, and immediately re-persist exactly
those three fields.  `revealed` is untouched. -/
def adopt (parsed : Json) (c : Config) : Config :=
  let rows := ((parsed.getField "rows").bind Json.asArray).getD []
  let order := ((parsed.getField "order").bind Json.asArray).getD []
  let index := match parsed.getField "index" with
    | some (.num q) => q
    | _ => 0
  { c with
    state := { c.state with rows := rows, order := order, index := index, loading := false }
    storage := some (.ok (serializeSession rows order index)) }

/-- Fresh catalog loading, the `Papa.parse` completion handler of lines
63–86: map and filter the raw rows, shuffle the index range, reset the cursor
to 0, clear `loading`, persist `{ order, index: 0, rows }`. -/
def freshLoad (data : List RawRow) (rand : ℕ → ℕ) (c : Config) : Config :=
  let mapped := (mapRows data).map Track.toJson
  let ord := (shuffle rand (List.range (mapRows data).length)).map
    (fun k : ℕ => Json.num (k : ℚ))
  { c with
    state := { c.state with rows := mapped, order := ord, index := 0, loading := false }
    storage := some (.ok (serializeSession mapped ord 0)) }

/-- The body of the startup effect (lines 34–86), after the one-shot guard:
read the stored value; on a successfully parsed, valid snapshot adopt it and
return; on an invalid snapshot fall through to fresh loading; on a parse
failure log a warning and fall through; on an absent key fall through. -/
def startupBody (data : List RawRow) (rand : ℕ → ℕ) (c : Config) : Config :=
  match c.storage with
  | some (.ok parsed) =>
      if validSnapshot parsed then adopt parsed c
      else freshLoad data rand c
  | some (.error _) =>
      freshLoad data rand { c with log := c.log ++ ["failed to load session"] }
  | none => freshLoad data rand c

/-- The startup effect with its one-shot guard (lines 30–32): if
`restoredRef.current` is set the invocation returns immediately; otherwise
the flag is set and the body runs. -/
def startup (data : List RawRow) (rand : ℕ → ℕ) (c : Config) : Config :=
  if c.restoredFlag then c
  else startupBody data rand { c with restoredFlag := true }

/-- `startNew` (lines 94–102): no-op on an empty catalog; otherwise reshuffle
the catalog index range, reset the cursor to 0, clear `revealed`, persist. -/
def startNew (rand : ℕ → ℕ) (c : Config) : Config :=
  if c.state.rows.length = 0 then c
  else
    let ord := (shuffle rand (List.range c.state.rows.length)).map
      (fun k : ℕ => Json.num (k : ℚ))
    { c with
      state := { c.state with order := ord, index := 0, revealed := false }
      storage := some (.ok (serializeSession c.state.rows ord 0)) }

/-- `next` (lines 104–112): no-op on an empty play order; otherwise clear
`revealed` and set the cursor to
`Math.min(prevIndex + 1, Math.max(0, order.length - 1))`.  The subsequent
persist effect (lines 90–92) writes the new triple to storage. -/
def next (c : Config) : Config :=
  if c.state.order.length = 0 then c
  else
    let idx := min (c.state.index + 1) (max 0 ((c.state.order.length : ℚ) - 1))
    { c with
      state := { c.state with revealed := false, index := idx }
      storage := some (.ok (serializeSession c.state.rows c.state.order idx)) }

/-- Current-track resolution `rows[order[index]]` (line 114): index `order`
by the cursor, then index `rows` by the resulting JSON value; any miss
(`undefined` at either step) yields `none`, the "no more cards" display state
of line 127. -/
def currentTrack (s : AppState) : Option Json :=
  jsIndexJson s.rows (jsIndexNum s.order s.index)

/-- The session-state invariant of the spec, section 3: if the play order is
non-empty the cursor lies within it. -/
def cursorInvariant (s : AppState) : Prop :=
  s.order ≠ [] → 0 ≤ s.index ∧ s.index < (s.order.length : ℚ)

/-- A valid state in the sense of the spec's data model, where the cursor is
"an integer cursor into PlayOrder … clamped to `[0, len(PlayOrder)-1]`": for
a non-empty play order the cursor lies between `0` and `length - 1`.  (For
integer cursors this is exactly `cursorInvariant`; stating the upper bound as
`≤ length - 1` is what the clamping argument of `next` preserves.) -/
def validCursor (s : AppState) : Prop :=
  s.order ≠ [] → 0 ≤ s.index ∧ s.index ≤ (s.order.length : ℚ) - 1

/-- Storage coherence: the slot under `STORAGE_KEY` holds exactly the
serialization `{ order, index, rows }` of the current state triple. -/
def storageMatches (c : Config) : Prop :=
  c.storage = some (Except.ok (serializeSession c.state.rows c.state.order c.state.index))

/-! Concrete fixtures used to instantiate the theorems below on closed
inputs. -/

/-- A sample track. -/
def trackA : Track :=
  { id := "1", Artist := "ABBA", Title := "Waterloo", URL := "https://x.com/a", Year := "1974" }

/-- Another sample track. -/
def trackB : Track :=
  { id := "2", Artist := "Queen", Title := "Jazz", URL := "https://x.com/b", Year := "1978" }

/-- A third sample track. -/
def trackC : Track :=
  { id := "3", Artist := "Falco", Title := "Amadeus", URL := "https://x.com/c", Year := "1985" }

/-- A sample catalog in serialized form. -/
def rowsFix : List Json := [trackA.toJson, trackB.toJson, trackC.toJson]

/-- A sample play order over `rowsFix`. -/
def orderFix : List Json := [.num 2, .num 0, .num 1]

/-- A stored snapshot that passes validation with an in-range cursor. -/
def snapGood : Json :=
  .obj [("order", .arr [.num 1, .num 0]), ("index", .num 1),
        ("rows", .arr [trackA.toJson, trackB.toJson])]

/-- A stored snapshot that passes validation although its cursor `5` is far
beyond its one-element `order`. -/
def snapBadIndex : Json :=
  .obj [("rows", .arr [.null]), ("order", .arr [.num 0]), ("index", .num 5)]

/-- The component at startup with an empty storage slot. -/
def cfg0 : Config :=
  { state := initialState, storage := none, restoredFlag := false, log := [] }

/-- The component at startup with `snapGood` in storage. -/
def cfgGood : Config :=
  { cfg0 with storage := some (Except.ok snapGood) }

/-- The component at startup with `snapBadIndex` in storage. -/
def cfgBadIndex : Config :=
  { cfg0 with storage := some (Except.ok snapBadIndex) }

/-- A running session over three tracks with coherent storage. -/
def cfgLoaded : Config :=
  { state := { loading := false, rows := rowsFix, order := orderFix, index := 0, revealed := true }
    storage := some (Except.ok (serializeSession rowsFix orderFix 0))
    restoredFlag := true
    log := [] }

/-! Helper lemmas. -/

/-- Swapping two positions of a list produces a permutation of it. -/
theorem listSwap_perm [DecidableEq α] (l : List α) (i j : ℕ) :
    (listSwap l i j).Perm l := by
  unfold listSwap
  cases hi : l.get? i with
  | none => exact List.Perm.refl l
  | some x =>
    cases hj : l.get? j with
    | none => exact List.Perm.refl l
    | some y =>
      rw [List.get?_eq_getElem?] at hi hj
      obtain ⟨hi', hix⟩ := List.getElem?_eq_some.mp hi
      obtain ⟨hj', hjy⟩ := List.getElem?_eq_some.mp hj
      rw [List.perm_iff_count]
      intro a
      have hj'' : j < (l.set i y).length := by simpa using hj'
      rw [List.count_set x a (l.set i y) j hj'']
      rw [List.count_set y a l i hi']
      have hset : (l.set i y).get ⟨j, hj''⟩ = y := by
        show (l.set i y)[j] = y
        rw [List.getElem_set]
        split <;> simp_all
      rw [show (l.set i y)[j] = y from hset, hix]
      have hle : (if (x == a) = true then 1 else 0) ≤ List.count a l := by
        by_cases hxa : x = a
        · subst hxa
          simp only [beq_self_eq_true, if_pos]
          exact List.count_pos_iff.mpr (hix ▸ List.getElem_mem hi')
        · simp [hxa]
      generalize (if (x == a) = true then 1 else 0) = cx at hle ⊢
      generalize (if (y == a) = true then 1 else 0) = cy
      omega

/-- The Fisher–Yates loop only permutes its input, whatever the random
draws. -/
theorem fyLoop_perm [DecidableEq α] (rand : ℕ → ℕ) (n : ℕ) (a : List α) :
    (fyLoop rand n a).Perm a := by
  induction n generalizing a with
  | zero => exact List.Perm.refl a
  | succ i ih => exact (ih _).trans (listSwap_perm a (i + 1) (rand (i + 1)))

/-- `shuffle` produces a permutation of its input. -/
theorem shuffle_perm [DecidableEq α] (rand : ℕ → ℕ) (arr : List α) :
    (shuffle rand arr).Perm arr :=
  fyLoop_perm rand (arr.length - 1) arr

/-- Dropping a `p`-prefix does not change the elements failing `p`. -/
theorem filter_dropWhile (p : α → Bool) (l : List α) :
    (l.dropWhile p).filter (fun a => !p a) = l.filter (fun a => !p a) := by
  induction l with
  | nil => rfl
  | cons a l ih =>
      by_cases h : p a
      · simp [List.dropWhile, List.filter, h, ih]
      · simp [List.dropWhile, List.filter, h]

/-- Replacing every run of `p`-characters by the empty string removes exactly
the `p`-characters. -/
theorem stripRunsBy_eq_filter (p : Char → Bool) (l : List Char) :
    stripRunsBy p l = l.filter (fun c => !p c) := by
  induction l using stripRunsBy.induct p with
  | case1 => rw [stripRunsBy]; rfl
  | case2 c cs h ih =>
      rw [stripRunsBy]
      simp only [h, if_pos]
      rw [ih, filter_dropWhile, List.filter_cons]
      simp [h]
  | case3 c cs h ih =>
      rw [stripRunsBy]
      simp only [h, if_neg, Bool.false_eq_true, not_false_iff]
      rw [ih, List.filter_cons]
      simp [h]

/-- Replacing every whitespace run by the empty string removes exactly the
whitespace characters. -/
theorem stripRuns_eq_filter (l : List Char) :
    stripRuns l = l.filter (fun c => !jsWhitespace c) :=
  stripRunsBy_eq_filter jsWhitespace l

/-- Character-level description of `stripWS`. -/
theorem stripWS_data (s : String) :
    (stripWS s).data = s.data.filter (fun c => !jsWhitespace c) :=
  stripRuns_eq_filter s.data

/-- The URL of a mapped row is its normalized raw URL, independent of the
row position. -/
theorem mapRow_URL (i : ℕ) (r : RawRow) : (mapRow i r).URL = stripWS (pickUrl r) := rfl

/-- Catalog length from an arbitrary enumeration start: the filtered, mapped
row list keeps exactly the rows with non-empty normalized URL. -/
theorem mapRowsFrom_length (n : ℕ) (data : List RawRow) :
    (((List.enumFrom n data).map (fun p => mapRow p.1 p.2)).filter
        (fun t => t.URL != "")).length
      = data.countP (fun r => stripWS (pickUrl r) != "") := by
  induction data generalizing n with
  | nil => rfl
  | cons r rs ih =>
      rw [List.enumFrom_cons, List.map_cons, List.filter_cons, List.countP_cons, mapRow_URL]
      by_cases h : (stripWS (pickUrl r) != "") = true
      · rw [if_pos h, if_pos h, List.length_cons, ih (n + 1)]
      · rw [if_neg h, if_neg h, ih (n + 1)]
        omega

/-- Catalog length equals the number of input rows with non-empty normalized
URL. -/
theorem mapRows_length (data : List RawRow) :
    (mapRows data).length = data.countP (fun r => stripWS (pickUrl r) != "") := by
  rw [mapRows, List.enum_eq_enumFrom]
  exact mapRowsFrom_length 0 data

/-- Characterization of the non-empty-array test. -/
theorem isNonEmptyArray_iff (o : Option Json) :
    isNonEmptyArray o = true ↔ ∃ xs, o = some (.arr xs) ∧ xs ≠ [] := by
  constructor
  · intro h
    match o, h with
    | some (.arr (x :: xs)), _ => exact ⟨x :: xs, rfl, by simp⟩
  · rintro ⟨xs, rfl, hne⟩
    match xs, hne with
    | x :: xs, _ => rfl

/-- Characterization of the number test. -/
theorem isNumber_iff (o : Option Json) :
    isNumber o = true ↔ ∃ q, o = some (.num q) := by
  constructor
  · intro h
    match o, h with
    | some (.num q), _ => exact ⟨q, rfl⟩
  · rintro ⟨q, rfl⟩
    rfl

/-- Only objects have fields, and objects are truthy: a successful field
access implies the `parsed &&` guard passed. -/
theorem truthy_of_getField (j : Json) (k : String) (v : Json)
    (h : j.getField k = some v) : j.truthy = true := by
  cases j <;> simp_all [Json.getField, Json.truthy]

/-- Field access on a serialized snapshot: the `order` field. -/
theorem serialize_getField_order (rows ord : List Json) (idx : ℚ) :
    (serializeSession rows ord idx).getField "order" = some (.arr ord) := rfl

/-- Field access on a serialized snapshot: the `index` field. -/
theorem serialize_getField_index (rows ord : List Json) (idx : ℚ) :
    (serializeSession rows ord idx).getField "index" = some (.num idx) := rfl

/-- Field access on a serialized snapshot: the `rows` field. -/
theorem serialize_getField_rows (rows ord : List Json) (idx : ℚ) :
    (serializeSession rows ord idx).getField "rows" = some (.arr rows) := rfl

/-- The startup body never touches the one-shot flag. -/
theorem startupBody_flag (data : List RawRow) (rand : ℕ → ℕ) (c : Config) :
    (startupBody data rand c).restoredFlag = c.restoredFlag := by
  rw [startupBody]
  cases c.storage with
  | none => rfl
  | some r =>
      cases r with
      | ok parsed =>
          by_cases h : validSnapshot parsed = true
          · simp only [h, if_pos]
            rfl
          · simp only [h, if_neg]
            rfl
      | error e => rfl

/-- A number indexes past the length of an array to `undefined`. -/
theorem jsIndexNum_eq_none (xs : List Json) (q : ℚ)
    (h : ¬(q.den = 1 ∧ 0 ≤ q ∧ q < (xs.length : ℚ))) : jsIndexNum xs q = none := by
  rw [jsIndexNum]
  by_cases hdq : q.den = 1 ∧ 0 ≤ q
  · simp only [hdq, if_pos]
    have hlen : (xs.length : ℚ) ≤ q := by
      by_contra hlt
      exact h ⟨hdq.1, hdq.2, lt_of_not_le hlt⟩
    have hq : (q.num : ℚ) = q := (Rat.den_eq_one_iff q).mp hdq.1
    have hnum : (xs.length : ℤ) ≤ q.num := by
      rw [← hq] at hlen
      exact_mod_cast hlen
    have hnat : xs.length ≤ q.num.toNat :=
      (Int.le_toNat (Rat.num_nonneg.mpr hdq.2)).mpr hnum
    exact List.get?_len_le hnat
  · simp [hdq]

/-- `next` never changes the play order. -/
theorem next_order (c : Config) : (next c).state.order = c.state.order := by
  rw [next]
  by_cases h : c.state.order.length = 0
  · simp [h]
  · simp [h]

/-- `next` never changes the catalog. -/
theorem next_rows (c : Config) : (next c).state.rows = c.state.rows := by
  rw [next]
  by_cases h : c.state.order.length = 0
  · simp [h]
  · simp [h]

/-- The play order is unchanged by any number of `next` steps. -/
theorem iterate_next_order (n : ℕ) (c : Config) :
    (next^[n] c).state.order = c.state.order := by
  induction n generalizing c with
  | zero => rfl
  | succ m ih =>
      rw [Function.iterate_succ_apply, ih, next_order]

/-- For a non-empty order, `Math.max(0, order.length - 1)` is
`order.length - 1`. -/
theorem max_len_sub_one (c : Config) (h : c.state.order ≠ []) :
    max 0 ((c.state.order.length : ℚ) - 1) = (c.state.order.length : ℚ) - 1 := by
  have h1 : (1 : ℚ) ≤ (c.state.order.length : ℚ) := by
    have := List.length_pos.mpr h
    exact_mod_cast this
  apply max_eq_right
  linarith

/-- The cursor after `next` on a non-empty order. -/
theorem next_index (c : Config) (h : c.state.order ≠ []) :
    (next c).state.index = min (c.state.index + 1) ((c.state.order.length : ℚ) - 1) := by
  have hlen : ¬(c.state.order.length = 0) := by
    simpa [List.length_eq_zero] using h
  rw [next, if_neg hlen]
  show min (c.state.index + 1) (max 0 ((c.state.order.length : ℚ) - 1)) = _
  rw [max_len_sub_one c h]

/-- `next` clears the `revealed` flag on a non-empty order. -/
theorem next_revealed (c : Config) (h : c.state.order ≠ []) :
    (next c).state.revealed = false := by
  have hlen : ¬(c.state.order.length = 0) := by
    simpa [List.length_eq_zero] using h
  rw [next, if_neg hlen]

/-- `next` on an empty order is a no-op. -/
theorem next_empty (c : Config) (h : c.state.order = []) : next c = c := by
  rw [next]
  simp [h]

/-- `next` preserves validity of the cursor. -/
theorem next_validCursor (c : Config) (hv : validCursor c.state) :
    validCursor (next c).state := by
  by_cases h : c.state.order = []
  · rw [next_empty c h]
    exact hv
  · intro _
    rw [next_order] at *
    rw [next_index c h]
    obtain ⟨h0, h1⟩ := hv h
    constructor
    · have : (0 : ℚ) ≤ c.state.index + 1 := by linarith
      have h1' : (1 : ℚ) ≤ (c.state.order.length : ℚ) := by
        have := List.length_pos.mpr h
        exact_mod_cast this
      exact le_min this (by linarith)
    · exact min_le_right _ _

/-- `next` never moves the cursor backwards on a valid state. -/
theorem next_index_mono (c : Config) (hv : validCursor c.state) :
    c.state.index ≤ (next c).state.index := by
  by_cases h : c.state.order = []
  · rw [next_empty c h]
  · rw [next_index c h]
    obtain ⟨h0, h1⟩ := hv h
    exact le_min (by linarith) h1

/-- Validity of the cursor is preserved by any number of `next` steps. -/
theorem iterate_next_validCursor (n : ℕ) (c : Config) (hv : validCursor c.state) :
    validCursor (next^[n] c).state := by
  induction n generalizing c with
  | zero => exact hv
  | succ m ih =>
      rw [Function.iterate_succ_apply]
      exact ih (next c) (next_validCursor c hv)

/-! Claim theorems. -/

/-- C1: Restore adopts a stored snapshot as the session state (rows from the
`rows` field, order from `order`, cursor from `index`) if and only if the
stored value deserializes successfully, its `rows` field is a non-empty
array, its `order` field is a non-empty array, and its `index` field is a
number (the code's additional truthiness guard is implied by these
conditions); in every other case — absent key, parse failure, or any failing
condition — the startup body falls through to fresh catalog loading, and a
parse failure is caught and logged as a warning rather than being fatal. -/
theorem C1_restore_validation (data : List RawRow) (rand : ℕ → ℕ) (c : Config) :
    (∀ j, c.storage = some (Except.ok j) →
        (validSnapshot j = true → startupBody data rand c = adopt j c) ∧
        (validSnapshot j = false → startupBody data rand c = freshLoad data rand c)) ∧
    (∀ j, validSnapshot j =
        (isNonEmptyArray (j.getField "rows") && isNonEmptyArray (j.getField "order") &&
          isNumber (j.getField "index"))) ∧
    (∀ j rs ord q, j.getField "rows" = some (.arr rs) →
        j.getField "order" = some (.arr ord) → j.getField "index" = some (.num q) →
        (adopt j c).state.rows = rs ∧ (adopt j c).state.order = ord ∧
          (adopt j c).state.index = q) ∧
    (c.storage = none → startupBody data rand c = freshLoad data rand c) ∧
    (∀ e, c.storage = some (Except.error e) →
        startupBody data rand c =
          freshLoad data rand { c with log := c.log ++ ["failed to load session"] }) := by
  refine ⟨?_, ?_, ?_, ?_, ?_⟩
  · intro j hj
    constructor
    · intro hv
      rw [startupBody, hj]
      simp [hv]
    · intro hv
      rw [startupBody, hj]
      simp [hv]
  · intro j
    by_cases hA : isNonEmptyArray (j.getField "rows") = true
    · obtain ⟨xs, hxs, -⟩ := (isNonEmptyArray_iff _).mp hA
      rw [validSnapshot, truthy_of_getField j "rows" _ hxs]
      simp
    · rw [validSnapshot, Bool.eq_false_iff.mpr hA]
      simp
  · intro j rs ord q h1 h2 h3
    refine ⟨?_, ?_, ?_⟩ <;> simp [adopt, h1, h2, h3, Json.asArray]
  · intro h
    rw [startupBody, h]
  · intro e he
    rw [startupBody, he]

/-- Witness for C1: a stored valid snapshot is adopted; an absent key falls
through to fresh catalog loading. -/
theorem C1_restore_validation_witness :
    startupBody [] (fun _ => 0) cfgGood = adopt snapGood cfgGood ∧
    startupBody [] (fun _ => 0) cfg0 = freshLoad [] (fun _ => 0) cfg0 :=
  ⟨((C1_restore_validation [] (fun _ => 0) cfgGood).1 snapGood rfl).1 rfl,
   (C1_restore_validation [] (fun _ => 0) cfg0).2.2.2.1 rfl⟩

/-- C8: StartNewSession with an empty catalog is a no-op leaving the whole
configuration (hence rows, order, index and revealed) unchanged; with a
non-empty catalog it sets the cursor to 0, clears `revealed`, and leaves the
catalog rows themselves untouched. -/
theorem C8_startNew_frame (rand : ℕ → ℕ) (c : Config) :
    (c.state.rows = [] → startNew rand c = c) ∧
    (c.state.rows ≠ [] →
        (startNew rand c).state.index = 0 ∧
        (startNew rand c).state.revealed = false ∧
        (startNew rand c).state.rows = c.state.rows) := by
  constructor
  · intro h
    rw [startNew, if_pos (by simp [h])]
  · intro h
    have hlen : ¬(c.state.rows.length = 0) := by
      simpa [List.length_eq_zero] using h
    rw [startNew, if_neg hlen]
    exact ⟨rfl, rfl, rfl⟩

/-- Witness for C8: no-op on the empty catalog of `cfg0`; on the loaded
three-track session the cursor resets, `revealed` clears, rows persist. -/
theorem C8_startNew_frame_witness :
    startNew (fun _ => 0) cfg0 = cfg0 ∧
    ((startNew (fun _ => 0) cfgLoaded).state.index = 0 ∧
      (startNew (fun _ => 0) cfgLoaded).state.revealed = false ∧
      (startNew (fun _ => 0) cfgLoaded).state.rows = cfgLoaded.state.rows) :=
  ⟨(C8_startNew_frame (fun _ => 0) cfg0).1 rfl,
   (C8_startNew_frame (fun _ => 0) cfgLoaded).2 (List.cons_ne_nil _ _)⟩

/-- C9: the startup routine executes its body exactly once per process
lifetime: the first invocation sets the one-shot guard flag, and a second
invocation — with any catalog data and any randomness — is a no-op, so
invoking startup twice has the same effect on state and storage as invoking
it once. -/
theorem C9_oneshot_guard (d1 d2 : List RawRow) (r1 r2 : ℕ → ℕ) (c : Config) :
    (startup d1 r1 c).restoredFlag = true ∧
    startup d2 r2 (startup d1 r1 c) = startup d1 r1 c := by
  have hflag : (startup d1 r1 c).restoredFlag = true := by
    rw [startup]
    by_cases h : c.restoredFlag = true
    · rw [if_pos h]
      exact h
    · rw [if_neg h, startupBody_flag]
  refine ⟨hflag, ?_⟩
  rw [startup, if_pos hflag]

/-- C2: for every state with non-empty play order, Advance sets the cursor to
`min(cursor + 1, length - 1)` and clears `revealed`; on an empty play order
it is a no-op; and over any sequence of Advance calls starting from a valid
state the cursor is non-decreasing, never exceeds `length - 1`, and Advance
at the last position leaves the cursor unchanged. -/
theorem C2_advance (c : Config) (n : ℕ) :
    (c.state.order ≠ [] →
        (next c).state.index = min (c.state.index + 1) ((c.state.order.length : ℚ) - 1) ∧
        (next c).state.revealed = false) ∧
    (c.state.order = [] → next c = c) ∧
    (validCursor c.state →
        (next^[n] c).state.index ≤ (next^[n + 1] c).state.index) ∧
    (validCursor c.state → c.state.order ≠ [] →
        (next^[n] c).state.index ≤ (c.state.order.length : ℚ) - 1) ∧
    (c.state.index = (c.state.order.length : ℚ) - 1 →
        (next c).state.index = c.state.index) := by
  refine ⟨fun h => ⟨next_index c h, next_revealed c h⟩, next_empty c, ?_, ?_, ?_⟩
  · intro hv
    rw [Function.iterate_succ_apply']
    exact next_index_mono _ (iterate_next_validCursor n c hv)
  · intro hv h
    have hvn := iterate_next_validCursor n c hv
    have horder : (next^[n] c).state.order = c.state.order := iterate_next_order n c
    have hub := (hvn (by rw [horder]; exact h)).2
    rwa [horder] at hub
  · intro h
    by_cases ho : c.state.order = []
    · rw [next_empty c ho]
    · rw [next_index c ho, h]
      exact min_eq_right (by linarith)

/-- Witness for C2: on the loaded three-track session, one Advance computes
the clamped increment, and the cursor does not decrease from step 2 to
step 3. -/
theorem C2_advance_witness :
    (next cfgLoaded).state.index
        = min (cfgLoaded.state.index + 1) ((cfgLoaded.state.order.length : ℚ) - 1) ∧
    (next^[2] cfgLoaded).state.index ≤ (next^[2 + 1] cfgLoaded).state.index :=
  ⟨((C2_advance cfgLoaded 2).1 (List.cons_ne_nil _ _)).1,
   (C2_advance cfgLoaded 2).2.2.1
      (fun _ => ⟨by norm_num [cfgLoaded], by norm_num [cfgLoaded, orderFix]⟩)⟩

/-- C3: for every catalog size `n` and every in-range draw sequence
(`rand i ≤ i`, modelling `Math.floor(Math.random() * (i + 1))` at loop step
`i`), the Fisher–Yates shuffle of `[0, n)` — iterating from the last index
down to 1 and swapping with the drawn index — produces a permutation of
`[0, n)`: the same multiset, of length `n`, with each index appearing exactly
once; consequently the play orders produced by StartNewSession and by fresh
catalog loading are permutations of the catalog index range. -/
theorem C3_shuffle_permutation (rand : ℕ → ℕ) (n : ℕ) (c : Config)
    (data : List RawRow) (hr : ∀ i, rand i ≤ i) :
    (shuffle rand (List.range n)).Perm (List.range n) ∧
    (shuffle rand (List.range n)).length = n ∧
    (∀ k, k < n → (shuffle rand (List.range n)).count k = 1) ∧
    (c.state.rows ≠ [] →
        (startNew rand c).state.order.Perm
          ((List.range c.state.rows.length).map (fun k : ℕ => Json.num (k : ℚ)))) ∧
    (freshLoad data rand c).state.order.Perm
        ((List.range (mapRows data).length).map (fun k : ℕ => Json.num (k : ℚ))) := by
  refine ⟨shuffle_perm rand (List.range n), ?_, ?_, ?_, ?_⟩
  · rw [(shuffle_perm rand (List.range n)).length_eq, List.length_range]
  · intro k hk
    rw [(shuffle_perm rand (List.range n)).count_eq]
    exact List.count_eq_one_of_mem (List.nodup_range n) (List.mem_range.mpr hk)
  · intro h
    have hlen : ¬(c.state.rows.length = 0) := by
      simpa [List.length_eq_zero] using h
    rw [startNew, if_neg hlen]
    exact (shuffle_perm rand (List.range c.state.rows.length)).map _
  · exact (shuffle_perm rand (List.range (mapRows data).length)).map _

/-- Witness for C3: with the draw sequence constantly 0 (always in range),
shuffling `[0, 3)` yields a permutation of it of length 3. -/
theorem C3_shuffle_permutation_witness :
    (shuffle (fun _ => 0) (List.range 3)).Perm (List.range 3) ∧
    (shuffle (fun _ => 0) (List.range 3)).length = 3 :=
  ⟨(C3_shuffle_permutation (fun _ => 0) 3 cfg0 [] (fun i => Nat.zero_le i)).1,
   (C3_shuffle_permutation (fun _ => 0) 3 cfg0 [] (fun i => Nat.zero_le i)).2.1⟩

/-- The startup body always leaves storage coherent with the state triple:
both the adopt re-persist and the fresh-load persist write exactly the new
triple. -/
theorem storageMatches_startupBody (data : List RawRow) (rand : ℕ → ℕ) (c : Config) :
    storageMatches (startupBody data rand c) := by
  rw [startupBody]
  cases c.storage with
  | none => rfl
  | some r =>
      cases r with
      | ok parsed =>
          show storageMatches (if validSnapshot parsed = true then adopt parsed c
            else freshLoad data rand c)
          by_cases h : validSnapshot parsed = true
          · rw [if_pos h]
            rfl
          · rw [if_neg h]
            rfl
      | error e => rfl

/-- A mutating `startNew` writes exactly the new triple. -/
theorem storageMatches_startNew (rand : ℕ → ℕ) (c : Config)
    (h : ¬(c.state.rows.length = 0)) : storageMatches (startNew rand c) := by
  rw [startNew, if_neg h]
  rfl

/-- A mutating `next` writes exactly the new triple. -/
theorem storageMatches_next (c : Config) (h : ¬(c.state.order.length = 0)) :
    storageMatches (next c) := by
  rw [next, if_neg h]
  rfl

/-- The length of the play order produced by a mutating `startNew` is the
catalog length. -/
theorem startNew_order_length (rand : ℕ → ℕ) (c : Config)
    (h : ¬(c.state.rows.length = 0)) :
    (startNew rand c).state.order.length = c.state.rows.length := by
  rw [startNew, if_neg h]
  show ((shuffle rand (List.range c.state.rows.length)).map
      (fun k : ℕ => Json.num (k : ℚ))).length = _
  rw [List.length_map, (shuffle_perm rand _).length_eq, List.length_range]

/-- C4 counterexample: the claim fails on the code.  Restoring the snapshot
`{rows: [null], order: [0], index: 5}` — which passes validation — produces a
reachable state whose play order is non-empty while the cursor `5` is not
below the order length `1`, violating the invariant. -/
theorem C4_counterexample :
    0 < (startup [] (fun _ => 0) cfgBadIndex).state.order.length ∧
    ¬((startup [] (fun _ => 0) cfgBadIndex).state.index <
        ((startup [] (fun _ => 0) cfgBadIndex).state.order.length : ℚ)) := by
  have horder : (startup [] (fun _ => 0) cfgBadIndex).state.order = [.num 0] := rfl
  have hindex : (startup [] (fun _ => 0) cfgBadIndex).state.index = 5 := rfl
  rw [horder, hindex]
  norm_num

/-- C4 (amended): fresh catalog loading and StartNewSession establish the
invariant (if the play order is non-empty then `0 ≤ index < length`), and
Advance preserves it; but Restore establishes it only when the adopted
snapshot's index happens to lie within the adopted order — adoption performs
no range check, so a restored state can violate the invariant (see the
counterexample). -/
theorem C4_invariant_amended (data : List RawRow) (rand : ℕ → ℕ) (c : Config)
    (j : Json) (ord : List Json) (q : ℚ) :
    cursorInvariant (freshLoad data rand c).state ∧
    (cursorInvariant c.state → cursorInvariant (startNew rand c).state) ∧
    (c.state.rows ≠ [] → cursorInvariant (startNew rand c).state) ∧
    (cursorInvariant c.state → cursorInvariant (next c).state) ∧
    (j.getField "order" = some (.arr ord) → j.getField "index" = some (.num q) →
        0 ≤ q → q < (ord.length : ℚ) → cursorInvariant (adopt j c).state) := by
  have hstartNew : ∀ hr : ¬(c.state.rows.length = 0),
      cursorInvariant (startNew rand c).state := by
    intro hr
    have hlen := startNew_order_length rand c hr
    rw [startNew, if_neg hr] at hlen ⊢
    intro hne
    constructor
    · show (0 : ℚ) ≤ 0
      exact le_refl 0
    · show (0 : ℚ) < _
      rw [hlen]
      have : 0 < c.state.rows.length := Nat.pos_of_ne_zero hr
      exact_mod_cast this
  refine ⟨?_, ?_, ?_, ?_, ?_⟩
  · intro hne
    constructor
    · show (0 : ℚ) ≤ 0
      exact le_refl 0
    · show (0 : ℚ) < ((freshLoad data rand c).state.order.length : ℚ)
      have := List.length_pos.mpr hne
      exact_mod_cast this
  · intro hc
    by_cases hr : c.state.rows.length = 0
    · rw [startNew, if_pos hr]
      exact hc
    · exact hstartNew hr
  · intro h
    exact hstartNew (by simpa [List.length_eq_zero] using h)
  · intro hc
    by_cases ho : c.state.order = []
    · rw [next_empty c ho]
      exact hc
    · intro _
      rw [next_order] at *
      rw [next_index c ho]
      obtain ⟨h0, h1⟩ := hc ho
      have hlen : (1 : ℚ) ≤ (c.state.order.length : ℚ) := by
        have := List.length_pos.mpr ho
        exact_mod_cast this
      constructor
      · exact le_min (by linarith) (by linarith)
      · exact lt_of_le_of_lt (min_le_right _ _) (by linarith)
  · intro h1 h2 hq0 hqlt
    intro hne
    have ho : (adopt j c).state.order = ord := by
      simp [adopt, h1, Json.asArray]
    have hi : (adopt j c).state.index = q := by
      simp [adopt, h2]
    rw [ho, hi]
    exact ⟨hq0, hqlt⟩

/-- Witness for the amended C4: a reshuffle over the loaded three-track
session satisfies the invariant, and adopting `snapGood` (whose index 1 is in
range for its two-element order) satisfies it too. -/
theorem C4_invariant_amended_witness :
    cursorInvariant (startNew (fun _ => 0) cfgLoaded).state ∧
    cursorInvariant (adopt snapGood cfgGood).state :=
  ⟨(C4_invariant_amended [] (fun _ => 0) cfgLoaded snapGood [] 0).2.2.1
      (List.cons_ne_nil _ _),
   (C4_invariant_amended [] (fun _ => 0) cfgGood snapGood [.num 1, .num 0] 1).2.2.2.2
      rfl rfl (by norm_num) (by norm_num)⟩

/-- C5: the URL of every mapped track is the raw URL — the first non-empty
among the recognized field casings — with all whitespace characters removed,
for the full ECMAScript whitespace class of the source regex (so the raw URL
`" https://x.com/y \n"` maps to `"https://x.com/y"`, a URL littered with VT,
NBSP and LS characters is cleaned likewise, and an NBSP-only URL normalizes
to the empty string), and every row whose resulting URL is empty is
discarded, so the catalog length equals the count of input rows with
non-empty normalized URL. -/
theorem C5_url_normalization (data : List RawRow) (i : ℕ) (r : RawRow) (s : String) :
    (mapRow i r).URL = stripWS (pickUrl r) ∧
    (stripWS s).data = s.data.filter (fun ch => !jsWhitespace ch) ∧
    stripWS " https://x.com/y \n" = "https://x.com/y" ∧
    stripWS "https://x.com/\u000B\u00A0\u2028y" = "https://x.com/y" ∧
    stripWS "\u00A0" = "" ∧
    (mapRows data).length = data.countP (fun row => stripWS (pickUrl row) != "") := by
  refine ⟨rfl, stripWS_data s, ?_, ?_, ?_, mapRows_length data⟩
  · show String.mk (stripRuns (" https://x.com/y \n").data) = "https://x.com/y"
    rw [stripRuns_eq_filter]
    rfl
  · show String.mk (stripRuns ("https://x.com/\u000B\u00A0\u2028y").data)
      = "https://x.com/y"
    rw [stripRuns_eq_filter]
    rfl
  · show String.mk (stripRuns ("\u00A0").data) = ""
    rw [stripRuns_eq_filter]
    rfl

/-- C6: when Restore adopts a valid snapshot it immediately re-persists it
under the same key, and the round trip holds: the re-read storage content has
the same `order` sequence, the same `index` and the same `rows` as the
snapshot that was restored — which are exactly the adopted state's triple. -/
theorem C6_restore_repersist (data : List RawRow) (rand : ℕ → ℕ) (j : Json)
    (c : Config) (hst : c.storage = some (Except.ok j))
    (hv : validSnapshot j = true) :
    ∃ jnew, (startupBody data rand c).storage = some (Except.ok jnew) ∧
      jnew.getField "order" = j.getField "order" ∧
      jnew.getField "index" = j.getField "index" ∧
      jnew.getField "rows" = j.getField "rows" ∧
      jnew.getField "order" = some (.arr (startupBody data rand c).state.order) ∧
      jnew.getField "index" = some (.num (startupBody data rand c).state.index) ∧
      jnew.getField "rows" = some (.arr (startupBody data rand c).state.rows) := by
  have hbody : startupBody data rand c = adopt j c := by
    rw [startupBody, hst]
    simp [hv]
  have hv' := hv
  rw [validSnapshot] at hv'
  simp only [Bool.and_eq_true] at hv'
  obtain ⟨⟨⟨-, hr⟩, ho⟩, hi⟩ := hv'
  obtain ⟨rs, hrs, -⟩ := (isNonEmptyArray_iff _).mp hr
  obtain ⟨ord, hord, -⟩ := (isNonEmptyArray_iff _).mp ho
  obtain ⟨q, hq⟩ := (isNumber_iff _).mp hi
  refine ⟨serializeSession rs ord q, ?_, ?_, ?_, ?_, ?_, ?_, ?_⟩
  · rw [hbody]
    simp [adopt, hrs, hord, hq, Json.asArray]
  · rw [serialize_getField_order, hord]
  · rw [serialize_getField_index, hq]
  · rw [serialize_getField_rows, hrs]
  · rw [hbody, serialize_getField_order]
    simp [adopt, hord, Json.asArray]
  · rw [hbody, serialize_getField_index]
    simp [adopt, hq]
  · rw [hbody, serialize_getField_rows]
    simp [adopt, hrs, Json.asArray]

/-- Witness for C6: restoring `snapGood` re-persists a snapshot with the same
order, index and rows, which are the adopted state triple. -/
theorem C6_restore_repersist_witness :
    ∃ jnew, (startupBody [] (fun _ => 0) cfgGood).storage = some (Except.ok jnew) ∧
      jnew.getField "order" = snapGood.getField "order" ∧
      jnew.getField "index" = snapGood.getField "index" ∧
      jnew.getField "rows" = snapGood.getField "rows" ∧
      jnew.getField "order"
        = some (.arr (startupBody [] (fun _ => 0) cfgGood).state.order) ∧
      jnew.getField "index"
        = some (.num (startupBody [] (fun _ => 0) cfgGood).state.index) ∧
      jnew.getField "rows"
        = some (.arr (startupBody [] (fun _ => 0) cfgGood).state.rows) :=
  C6_restore_repersist [] (fun _ => 0) snapGood cfgGood rfl rfl

/-- C7: storage-matches-state is an invariant of every step of the state
machine: the startup body (whether it adopts or freshly loads) always leaves
the fixed session key holding the serialization `{order, index, rows}` of the
current triple; guarded startup, StartNewSession and Advance leave it
coherent whenever it was, and every mutating StartNewSession or Advance
(non-empty catalog resp. play order) re-establishes it outright. -/
theorem C7_storage_coherence (data : List RawRow) (rand : ℕ → ℕ) (c : Config) :
    storageMatches (startupBody data rand c) ∧
    (storageMatches c → storageMatches (startup data rand c)) ∧
    (c.state.rows ≠ [] → storageMatches (startNew rand c)) ∧
    (storageMatches c → storageMatches (startNew rand c)) ∧
    (c.state.order ≠ [] → storageMatches (next c)) ∧
    (storageMatches c → storageMatches (next c)) := by
  refine ⟨storageMatches_startupBody data rand c, ?_, ?_, ?_, ?_, ?_⟩
  · intro hm
    rw [startup]
    by_cases h : c.restoredFlag = true
    · rw [if_pos h]
      exact hm
    · rw [if_neg h]
      exact storageMatches_startupBody data rand _
  · intro h
    exact storageMatches_startNew rand c (by simpa [List.length_eq_zero] using h)
  · intro hm
    by_cases h : c.state.rows.length = 0
    · rw [startNew, if_pos h]
      exact hm
    · exact storageMatches_startNew rand c h
  · intro h
    exact storageMatches_next c (by simpa [List.length_eq_zero] using h)
  · intro hm
    by_cases h : c.state.order.length = 0
    · rw [next, if_pos h]
      exact hm
    · exact storageMatches_next c h

/-- Witness for C7: the startup body on an empty storage slot and an Advance
on the loaded session both leave storage coherent with the state triple. -/
theorem C7_storage_coherence_witness :
    storageMatches (startupBody [] (fun _ => 0) cfg0) ∧
    storageMatches (next cfgLoaded) :=
  ⟨(C7_storage_coherence [] (fun _ => 0) cfg0).1,
   (C7_storage_coherence [] (fun _ => 0) cfgLoaded).2.2.2.2.1 (List.cons_ne_nil _ _)⟩

/-- C10: the restore validation never range-checks the order entries or the
index: every snapshot with a non-empty `rows` array, a non-empty `order`
array and a numeric `index` — negative, fractional or out-of-range included —
passes validation and is adopted as-is; current-track resolution
`rows[order[index]]` is a total function (`currentTrack`), and for an
out-of-range cursor, or an in-range cursor whose order entry is a number that
is not a valid catalog position, it yields `none` — the "no more cards"
display state — rather than a fault. -/
theorem C10_no_range_check (data : List RawRow) (rand : ℕ → ℕ) (j : Json)
    (c : Config) (rowsJ orderJ : List Json) (q : ℚ)
    (hrows : j.getField "rows" = some (.arr rowsJ)) (hrne : rowsJ ≠ [])
    (hord : j.getField "order" = some (.arr orderJ)) (hone : orderJ ≠ [])
    (hidx : j.getField "index" = some (.num q))
    (hst : c.storage = some (Except.ok j)) :
    validSnapshot j = true ∧
    startupBody data rand c = adopt j c ∧
    (adopt j c).state.rows = rowsJ ∧
    (adopt j c).state.order = orderJ ∧
    (adopt j c).state.index = q ∧
    (¬(q.den = 1 ∧ 0 ≤ q ∧ q < (orderJ.length : ℚ)) →
        currentTrack (adopt j c).state = none) ∧
    (∀ p : ℚ, jsIndexNum orderJ q = some (.num p) →
        ¬(p.den = 1 ∧ 0 ≤ p ∧ p < (rowsJ.length : ℚ)) →
        currentTrack (adopt j c).state = none) := by
  have hv : validSnapshot j = true := by
    rw [validSnapshot, truthy_of_getField j "rows" _ hrows, hrows, hord, hidx]
    obtain ⟨r0, rtl, rfl⟩ : ∃ r0 rtl, rowsJ = r0 :: rtl := by
      cases rowsJ with
      | nil => exact absurd rfl hrne
      | cons r0 rtl => exact ⟨r0, rtl, rfl⟩
    obtain ⟨o0, otl, rfl⟩ : ∃ o0 otl, orderJ = o0 :: otl := by
      cases orderJ with
      | nil => exact absurd rfl hone
      | cons o0 otl => exact ⟨o0, otl, rfl⟩
    rfl
  have hrows' : (adopt j c).state.rows = rowsJ := by
    simp [adopt, hrows, Json.asArray]
  have hord' : (adopt j c).state.order = orderJ := by
    simp [adopt, hord, Json.asArray]
  have hidx' : (adopt j c).state.index = q := by
    simp [adopt, hidx]
  refine ⟨hv, ?_, hrows', hord', hidx', ?_, ?_⟩
  · rw [startupBody, hst]
    simp [hv]
  · intro hbad
    rw [currentTrack, hrows', hord', hidx', jsIndexNum_eq_none orderJ q hbad]
    rfl
  · intro p hp hbad
    rw [currentTrack, hrows', hord', hidx', hp]
    show jsIndexNum rowsJ p = none
    exact jsIndexNum_eq_none rowsJ p hbad

/-- Witness for C10: the snapshot `{rows: [null], order: [0], index: 5}`
passes validation and resolves to no current track (index 5 is out of range
for a one-element order). -/
theorem C10_no_range_check_witness :
    validSnapshot snapBadIndex = true ∧
    currentTrack (adopt snapBadIndex cfgBadIndex).state = none :=
  ⟨(C10_no_range_check [] (fun _ => 0) snapBadIndex cfgBadIndex [.null] [.num 0] 5
      rfl (List.cons_ne_nil _ _) rfl (List.cons_ne_nil _ _) rfl rfl).1,
   (C10_no_range_check [] (fun _ => 0) snapBadIndex cfgBadIndex [.null] [.num 0] 5
      rfl (List.cons_ne_nil _ _) rfl (List.cons_ne_nil _ _) rfl rfl).2.2.2.2.2.1
      (by intro hcon; have h5 := hcon.2.2; norm_num at h5)⟩

end Hitster
